import Mathlib

/-!
Verification of the streaming pipeline of the yamusic terminal client.

This file shallowly embeds the core of `src/stream/` — the sliding byte
buffer (`buffer.rs`), the random-access streaming reader (`data_source.rs`)
and the generation-tagged PCM sample pipeline (`pcm.rs`) — as executable
Lean definitions, and proves the documented properties of that core.

Modelling conventions:
* `u64`/`usize` fields become `Nat`; the single place where u64 arithmetic
  can wrap (the `pos - start_pos` offset computation in
  `BufferState::read_at`) is modelled explicitly with `u64WrapSub`,
  matching the wraparound of release builds.
* The `VecDeque<u8>` backing store is modelled as the list of buffered
  bytes (`data`) together with the ring-buffer index of the first element
  (`head`); `as_slices` splits the logical contents at
  `min (data.length) (BUFFER_SIZE - head)`, exactly the wrap point of a
  ring of capacity `BUFFER_SIZE`.  `drain(..k)` at the front advances
  `head` by `k` modulo the capacity; `clear` resets `head` to `0`;
  `extend` at the back leaves `head` unchanged.
* `VecDeque::drain(..overflow)` panics when `overflow` exceeds the
  current length; `BufferState.append` therefore returns an `Option`,
  with `none` marking the panic.
* Channels are modelled as the list of messages that `try_recv` would
  deliver, in order; an empty list is a transiently empty channel.
-/

namespace YaMusic

/-- Wrapping subtraction on `u64` values embedded as naturals: for
`a b < 2 ^ 64` this is exactly Rust `a.wrapping_sub(b)`. -/
def u64WrapSub (a b : Nat) : Nat :=
  (a + (2 ^ 64 - b % 2 ^ 64)) % 2 ^ 64

/-- Capacity of the sliding window (16 MiB), `buffer.rs` line 3. -/
def BUFFER_SIZE : Nat := 16 * 1024 * 1024

/-- Prefetch trigger threshold (256 KiB), `buffer.rs` line 4. -/
def PREFETCH_TRIGGER : Nat := 256 * 1024

/-- The buffer window of `buffer.rs`.  `data` is the logical contents of
the `VecDeque<u8>` and `head` the ring index of its first element (the
split point of `as_slices`); the remaining fields are the struct fields
verbatim. -/
structure BufferState where
  data : List Nat
  head : Nat
  start_pos : Nat
  total_bytes : Nat
  eof : Bool
  pending : Option (Nat × Nat)
  max_buffered_from_start : Nat
  buffering_base : Nat
deriving DecidableEq

namespace BufferState

/-- Model of `BufferState::new` (`buffer.rs` lines 18-28). -/
def new (total_bytes : Nat) : BufferState :=
  { data := []
    head := 0
    start_pos := 0
    total_bytes := total_bytes
    eof := false
    pending := none
    max_buffered_from_start := 0
    buffering_base := 0 }

/-- Model of `BufferState::contains` (`buffer.rs` lines 30-32). -/
def contains (s : BufferState) (pos : Nat) : Bool :=
  s.start_pos ≤ pos && pos < s.start_pos + s.data.length

/-- Model of `BufferState::available_from` (`buffer.rs` lines 34-40). -/
def available_from (s : BufferState) (pos : Nat) : Nat :=
  if s.contains pos then s.data.length - (pos - s.start_pos) else 0

/-- Model of `BufferState::end_pos` (`buffer.rs` lines 141-143). -/
def end_pos (s : BufferState) : Nat :=
  s.start_pos + s.data.length

/-- The length of the first slice returned by `VecDeque::as_slices`: the
contents run from ring index `head` to the end of the ring of capacity
`BUFFER_SIZE`, wrapping to the front. -/
def firstSliceLen (s : BufferState) : Nat :=
  min s.data.length (BUFFER_SIZE - s.head)

/-- Write of `src` into `buf` at offset `at_`, modelling a
`copy_from_slice` into a subrange on lists. -/
def writeSlice (buf : List Nat) (at_ : Nat) (src : List Nat) : List Nat :=
  buf.take at_ ++ src ++ buf.drop (at_ + src.length)

/-- Model of `BufferState::read_at` (`buffer.rs` lines 42-63).  Returns the count
together with the destination slice after the copies.  The offset
computation `(pos - self.start_pos) as usize` wraps on underflow
(`u64WrapSub`); the copy is performed against the two `as_slices`
halves `s1`, `s2`, exactly as in the source. -/
def read_at (s : BufferState) (pos : Nat) (buf : List Nat) : Nat × List Nat :=
  let avail := s.available_from pos
  let len := min buf.length avail
  let off := u64WrapSub pos s.start_pos
  let s1 := s.data.take s.firstSliceLen
  let s2 := s.data.drop s.firstSliceLen
  if off + len ≤ s1.length then
    (len, writeSlice buf 0 ((s1.drop off).take len))
  else
    let copied := if off < s1.length then s1.length - off else 0
    let buf1 := if off < s1.length then writeSlice buf 0 (s1.drop off) else buf
    let buf2 := if copied < len then writeSlice buf1 copied (s2.take (len - copied)) else buf1
    (len, buf2)

/-- Pending-marker clearing of `buffer.rs` lines 70-74: the pending marker is cleared when the
appended range starts inside it. -/
def clearPendingIfCovered (s : BufferState) (start : Nat) : BufferState :=
  match s.pending with
  | some (ps, pe) => if ps ≤ start && start < pe then { s with pending := none } else s
  | none => s

/-- Window rebase of `buffer.rs` lines 84-91: a non-empty window is rebased (cleared and
restarted at `start`) when the append is not adjacent to its end. -/
def rebaseIfNonAdjacent (s : BufferState) (start : Nat) : BufferState :=
  if !s.data.isEmpty && start ≠ s.start_pos + s.data.length then
    { s with data := [], head := 0, start_pos := start, eof := false }
  else s

/-- Eviction and extend stage of `buffer.rs` lines 93-112: capacity eviction, EOF marking, the actual
extend, and the high-water-mark bookkeeping.  `none` models the panic of
`VecDeque::drain(..overflow)` when `overflow` exceeds the length. -/
def appendCore (s : BufferState) (new : List Nat) (start : Nat) : Option BufferState :=
  let overflow := s.data.length + new.length - BUFFER_SIZE
  if s.data.length < overflow then none
  else
    let evictedData := if 0 < overflow then s.data.drop overflow else s.data
    let evictedHead := if 0 < overflow then (s.head + overflow) % BUFFER_SIZE else s.head
    let evictedStart := if 0 < overflow then s.start_pos + overflow else s.start_pos
    let newEof := if s.total_bytes ≤ start + new.length then true else s.eof
    let newData := evictedData ++ new
    let new_end := evictedStart + newData.length
    let newMax :=
      if s.buffering_base ≤ evictedStart && evictedStart ≤ s.max_buffered_from_start + 1 then
        max s.max_buffered_from_start new_end
      else s.max_buffered_from_start
    some
      { data := newData
        head := evictedHead
        start_pos := evictedStart
        total_bytes := s.total_bytes
        eof := newEof
        pending := s.pending
        max_buffered_from_start := newMax
        buffering_base := s.buffering_base }

/-- Model of `BufferState::append` (`buffer.rs` lines 65-113).  The result is the
returned `bool` paired with the mutated state; `none` models the panic of
the eviction drain. -/
def append (s : BufferState) (new : List Nat) (start : Nat) : Option (Bool × BufferState) :=
  if new = [] then some (false, s)
  else
    let s1 := clearPendingIfCovered s start
    if start < s1.start_pos then some (false, s1)
    else if s1.data.isEmpty && start ≠ s1.start_pos then some (false, s1)
    else
      match appendCore (rebaseIfNonAdjacent s1 start) new start with
      | none => none
      | some s' => some (true, s')

/-- Model of `BufferState::clear` (`buffer.rs` lines 115-124). -/
def clear (s : BufferState) (start : Nat) : BufferState :=
  let s1 := { s with data := [], head := 0, start_pos := start, pending := none, eof := false }
  if start ≤ s1.max_buffered_from_start then
    { s1 with buffering_base := start, max_buffered_from_start := start }
  else s1

/-- Model of `BufferState::discard_before` (`buffer.rs` lines 126-139). -/
def discard_before (s : BufferState) (pos : Nat) : BufferState :=
  if pos ≤ s.start_pos then s
  else
    let drop := min (pos - s.start_pos) s.data.length
    if drop = 0 then s
    else
      let s1 :=
        { s with
          data := s.data.drop drop
          head := (s.head + drop) % BUFFER_SIZE
          start_pos := s.start_pos + drop }
      { s1 with
        max_buffered_from_start :=
          max s1.max_buffered_from_start (s1.start_pos + s1.data.length) }

/-- Model of `BufferState::should_prefetch` (`buffer.rs` lines 149-151). -/
def should_prefetch (s : BufferState) (pos : Nat) : Bool :=
  !s.eof && s.pending.isNone && s.available_from pos < PREFETCH_TRIGGER

/-- Model of `BufferState::mark_pending` (`buffer.rs` lines 153-155). -/
def mark_pending (s : BufferState) (start end_ : Nat) : BufferState :=
  { s with pending := some (start, end_) }

/-- Model of `BufferState::clear_pending` (`buffer.rs` lines 157-159). -/
def clear_pending (s : BufferState) : BufferState :=
  { s with pending := none }

end BufferState

/-! ## `data_source.rs` -/

/-- Prefetch chunk size, `data_source.rs` line 15. -/
def PREFETCH_SIZE : Nat := 256 * 1024

/-- Minimum initial fill, `data_source.rs` line 16. -/
def MIN_INITIAL_DATA : Nat := 64 * 1024

/-- Retry ceiling of the waits, `data_source.rs` line 17. -/
def MAX_ATTEMPTS : Nat := 100

/-- Outcome of `fetch_range_blocking`: the fetched bytes, or a network
error. -/
inductive FetchOutcome where
  | ok (data : List Nat)
  | err
deriving DecidableEq

/-- One iteration of `StreamingDataSource::fetch_loop_blocking` for a
`Fetch{start, end, generation}` command (`data_source.rs` lines
102-138): the range is marked pending on receipt; when the blocking fetch
succeeds, the result is applied through `append` only if the
generation of the command still equals the shared generation observed when the result
arrives (`curGen`); on failure only the pending marker is cleared.
`none` models the panic path inside `append`. -/
def processFetchResult (buf : BufferState) (start end_ reqGen curGen : Nat)
    (outcome : FetchOutcome) : Option BufferState :=
  let b := buf.mark_pending start end_
  match outcome with
  | .ok data =>
    if reqGen ≠ curGen then some b
    else
      match b.append data start with
      | some (_, b') => some b'
      | none => none
  | .err => some b.clear_pending

/-- Generation bump: `StreamingDataSource::ensure` bumps the shared generation with
`fetch_add(1)` when the window must be resynced (`data_source.rs` line
202); the new shared value is the old one plus one.  `StreamController::seek`
in `pcm.rs` (lines 40-46) performs the same bump on the decode-side
counter and tags its command with the bumped value. -/
def bumpGeneration (g : Nat) : Nat := g + 1

/-- Model of `http::HeaderValue::to_str`: it succeeds iff every byte of the value is
visible ASCII or a tab. -/
def headerValueToStr (bs : List Nat) : Option (List Nat) :=
  if bs.all (fun b => (32 ≤ b && b < 127) || b = 9) then some bs else none

/-- One byte is an ASCII decimal digit. -/
def isAsciiDigit (b : Nat) : Bool := 48 ≤ b && b ≤ 57

/-- Model of `str::parse::<u64>` (Rust `u64::from_str`): an optional leading `+`,
then one or more ASCII digits, rejecting the empty string and values that
overflow 64 bits. -/
def parseU64 (cs : List Nat) : Option Nat :=
  let ds := match cs with
    | c :: rest => if c = 43 then rest else cs
    | [] => []
  if ds.isEmpty then none
  else if ds.all isAsciiDigit then
    let v := ds.foldl (fun acc d => acc * 10 + (d - 48)) 0
    if v < 2 ^ 64 then some v else none
  else none

/-- Content-length extraction of `data_source.rs` lines 41-46: the
`content-length` header of the HEAD probe (as raw bytes, `none` when absent), passed through `to_str` and
`parse::<u64>`. -/
def contentLengthOf (header : Option (List Nat)) : Option Nat :=
  (header.bind headerValueToStr).bind parseU64

/-- The state of a `StreamingDataSource` as constructed by `new`
(`data_source.rs` lines 76-84): resource length, buffer window, read
cursor and fetch generation. -/
structure StreamingDataSource where
  total_bytes : Nat
  buffer : BufferState
  position : Nat
  generation : Nat
deriving DecidableEq

/-- Model of `StreamingDataSource::new` up to its first network effect
(`data_source.rs` lines 39-54): the `content-length` header of the HEAD probe
must parse as a `u64`, otherwise construction fails with
`content-length missing` before any reader state is built; on success the
reader starts with a fresh window over `total` bytes, cursor `0` and
generation `0` (the subsequent initial fetch and wait are I/O and do not
alter these fields). -/
def StreamingDataSource.new (header : Option (List Nat)) :
    Except String StreamingDataSource :=
  match contentLengthOf header with
  | none => .error "content-length missing"
  | some total => .ok ⟨total, BufferState.new total, 0, 0⟩

/-! ## `pcm.rs` -/

/-- Decode chunk size in samples, `pcm.rs` line 20. -/
def PCM_CHUNK_SAMPLES : Nat := 8192

/-- Bound of the sample channel, `pcm.rs` line 21. -/
def SAMPLE_CHANNEL_CAPACITY : Nat := 32

/-- Model of `SampleMessage` (`pcm.rs` lines 23-26): a PCM chunk or an
end-of-stream marker, each tagged with the generation it was produced
under.  Sample values (`f32`) are embedded as rationals; `next` never
computes with them, it only stores and returns them. -/
inductive SampleMessage where
  | samples (chunk : List ℚ) (generation : Nat)
  | finished (generation : Nat)
deriving DecidableEq

/-- The consumer-side fields of `BufferedStreamingSource` that
`Iterator::next` reads and writes (`pcm.rs` lines 53-64). -/
structure IterState where
  pending_samples : List ℚ
  sample_pos : Nat
  pending_generation : Nat
  finished_generation : Option Nat
deriving DecidableEq

/-- Generation sync of `pcm.rs` lines 95-101: on entry `next` loads the shared generation;
if it moved since last observed, the buffered chunk, replay cursor and
finished flag are discarded and the new generation adopted. -/
def syncGeneration (s : IterState) (g : Nat) : IterState :=
  if s.pending_generation ≠ g then
    { pending_samples := [], sample_pos := 0, pending_generation := g,
      finished_generation := none }
  else s

/-- The `try_recv` loop of `BufferedStreamingSource::next` (`pcm.rs`
lines 109-139), with the channel as the list of messages `try_recv`
would deliver in order.  Messages tagged with a generation other than the
one observed at the start of the call are silently dropped; a
current-generation chunk is buffered and its first sample returned; a
current-generation `finished` is recorded and ends iteration once the
buffer is drained; an empty channel yields the silence sample `0`
(unless finished), never blocking. -/
def recvLoop (g : Nat) (s : IterState) (msgs : List SampleMessage) :
    Option ℚ × IterState × List SampleMessage :=
  match msgs with
  | [] =>
    if s.finished_generation = some g then (none, s, []) else (some 0, s, [])
  | .samples chunk t :: rest =>
    if t ≠ g then recvLoop g s rest
    else
      let s' := { s with pending_samples := chunk, sample_pos := 0 }
      if h : s'.sample_pos < s'.pending_samples.length then
        (some (s'.pending_samples.get ⟨s'.sample_pos, h⟩),
         { s' with sample_pos := s'.sample_pos + 1 }, rest)
      else recvLoop g s' rest
  | .finished t :: rest =>
    if t = g then
      let s' := { s with finished_generation := some t }
      if s'.pending_samples.length ≤ s'.sample_pos then (none, s', rest)
      else recvLoop g s' rest
    else recvLoop g s rest

/-- Model of `BufferedStreamingSource::next` (`pcm.rs` lines 94-140): `g` is the
shared generation observed at the start of the call; the result is the
yielded sample (`none` = iterator exhausted), the updated consumer state
and the messages still in the channel. -/
def nextSample (s : IterState) (g : Nat) (msgs : List SampleMessage) :
    Option ℚ × IterState × List SampleMessage :=
  let s1 := syncGeneration s g
  if h : s1.sample_pos < s1.pending_samples.length then
    (some (s1.pending_samples.get ⟨s1.sample_pos, h⟩),
     { s1 with sample_pos := s1.sample_pos + 1 }, msgs)
  else recvLoop g s1 msgs

/-! ## Helper lemmas -/

namespace BufferState

theorem clearPendingIfCovered_data (s : BufferState) (start : Nat) :
    (clearPendingIfCovered s start).data = s.data := by
  unfold clearPendingIfCovered
  rcases s.pending with _ | ⟨ps, pe⟩
  · rfl
  · simp only []; split <;> rfl

theorem clearPendingIfCovered_start_pos (s : BufferState) (start : Nat) :
    (clearPendingIfCovered s start).start_pos = s.start_pos := by
  unfold clearPendingIfCovered
  rcases s.pending with _ | ⟨ps, pe⟩
  · rfl
  · simp only []; split <;> rfl

theorem clearPendingIfCovered_eof (s : BufferState) (start : Nat) :
    (clearPendingIfCovered s start).eof = s.eof := by
  unfold clearPendingIfCovered
  rcases s.pending with _ | ⟨ps, pe⟩
  · rfl
  · simp only []; split <;> rfl

theorem clearPendingIfCovered_total_bytes (s : BufferState) (start : Nat) :
    (clearPendingIfCovered s start).total_bytes = s.total_bytes := by
  unfold clearPendingIfCovered
  rcases s.pending with _ | ⟨ps, pe⟩
  · rfl
  · simp only []; split <;> rfl

theorem rebaseIfNonAdjacent_total_bytes (s : BufferState) (start : Nat) :
    (rebaseIfNonAdjacent s start).total_bytes = s.total_bytes := by
  unfold rebaseIfNonAdjacent; split <;> rfl

theorem rebaseIfNonAdjacent_data_cases (s : BufferState) (start : Nat) :
    (rebaseIfNonAdjacent s start).data = [] ∨ (rebaseIfNonAdjacent s start).data = s.data := by
  unfold rebaseIfNonAdjacent; split
  · exact Or.inl rfl
  · exact Or.inr rfl

theorem rebaseIfNonAdjacent_start_pos_cases (s : BufferState) (start : Nat) :
    (rebaseIfNonAdjacent s start).start_pos = start ∨
      (rebaseIfNonAdjacent s start).start_pos = s.start_pos := by
  unfold rebaseIfNonAdjacent; split
  · exact Or.inl rfl
  · exact Or.inr rfl

theorem rebaseIfNonAdjacent_eq_self (s : BufferState) (start : Nat)
    (h : s.data = [] ∨ start = s.start_pos + s.data.length) :
    rebaseIfNonAdjacent s start = s := by
  unfold rebaseIfNonAdjacent
  rcases h with h | h <;> simp [h]

/-- Full characterization of a non-panicking `appendCore` run. -/
theorem appendCore_elim (s : BufferState) (new : List Nat) (start : Nat) (s' : BufferState)
    (h : appendCore s new start = some s') :
    s.data.length + new.length - BUFFER_SIZE ≤ s.data.length ∧
    s'.data = s.data.drop (s.data.length + new.length - BUFFER_SIZE) ++ new ∧
    s'.start_pos = s.start_pos + (s.data.length + new.length - BUFFER_SIZE) ∧
    s'.total_bytes = s.total_bytes ∧
    s'.eof = (s.eof || decide (s.total_bytes ≤ start + new.length)) := by
  unfold appendCore at h
  simp only [] at h
  split at h
  · exact absurd h (by simp)
  · next hov =>
    rw [Option.some_inj] at h
    subst h
    refine ⟨by omega, ?_, ?_, ?_, ?_⟩
    · by_cases h0 : 0 < s.data.length + new.length - BUFFER_SIZE
      · simp [h0]
      · have hz : s.data.length + new.length - BUFFER_SIZE = 0 := by omega
        simp [h0, hz]
    · by_cases h0 : 0 < s.data.length + new.length - BUFFER_SIZE
      · simp [h0]
      · have hz : s.data.length + new.length - BUFFER_SIZE = 0 := by omega
        simp [h0, hz]
    · rfl
    · by_cases ht : s.total_bytes ≤ start + new.length <;> simp [ht]

theorem append_true_elim (s : BufferState) (new : List Nat) (start : Nat) (s' : BufferState)
    (h : s.append new start = some (true, s')) :
    new ≠ [] ∧ s.start_pos ≤ start ∧
      appendCore (rebaseIfNonAdjacent (clearPendingIfCovered s start) start) new start =
        some s' := by
  unfold append at h
  simp only [] at h
  split at h
  · simp at h
  · split at h
    · simp at h
    · split at h
      · simp at h
      · next hne hlt hemp =>
        cases hc : appendCore (rebaseIfNonAdjacent (clearPendingIfCovered s start) start)
            new start with
        | none => rw [hc] at h; cases h
        | some s2 =>
          rw [hc] at h
          simp only [Option.some_inj, Prod.mk.injEq] at h
          refine ⟨hne, ?_, ?_⟩
          · rw [clearPendingIfCovered_start_pos] at hlt
            omega
          · exact congrArg some h.2

theorem append_false_elim (s : BufferState) (new : List Nat) (start : Nat) (s' : BufferState)
    (h : s.append new start = some (false, s')) :
    s' = s ∨ s' = clearPendingIfCovered s start := by
  unfold append at h
  simp only [] at h
  split at h
  · simp only [Option.some_inj, Prod.mk.injEq] at h
    exact Or.inl h.2.symm
  · split at h
    · simp only [Option.some_inj, Prod.mk.injEq] at h
      exact Or.inr h.2.symm
    · split at h
      · simp only [Option.some_inj, Prod.mk.injEq] at h
        exact Or.inr h.2.symm
      · cases hc : appendCore (rebaseIfNonAdjacent (clearPendingIfCovered s start) start)
            new start with
        | none => rw [hc] at h; cases h
        | some s2 => rw [hc] at h; simp at h

theorem rebaseIfNonAdjacent_fires (s : BufferState) (start : Nat)
    (h1 : s.data ≠ []) (h2 : start ≠ s.start_pos + s.data.length) :
    rebaseIfNonAdjacent s start =
      { s with data := [], head := 0, start_pos := start, eof := false } := by
  unfold rebaseIfNonAdjacent
  rw [if_pos]
  simp [h1, h2]

end BufferState

/-! ## Claim theorems: buffer window -/

/-- C3 (counterexample): with an *empty* window whose `start_pos` is `0`,
an append at `start = 5` satisfies `start ≥ start_pos` and
`start ≠ end_pos`, yet the rebase predicted by the claim does not happen: the
input is rejected (`false`) and the window still begins at `0` with no
cached bytes. -/
theorem append_rejects_rebase_on_empty_window_cex :
    (BufferState.new 100).start_pos ≤ 5 ∧ 5 ≠ (BufferState.new 100).end_pos ∧
      (BufferState.new 100).append [1] 5 = some (false, BufferState.new 100) := by
  decide

/-- C3 (amended): `append` returns `false` on empty input; data is
accepted only when `start ≥ start_pos`; a *non-empty* window is rebased
to begin at `start` (old bytes discarded) when `start` is not the window
end, while an *empty* window rejects any `start ≠ start_pos`; and after
any append the cached offsets form one contiguous run. -/
theorem append_acceptance_and_rebase :
    (∀ (s : BufferState) (start : Nat), s.append [] start = some (false, s)) ∧
    (∀ (s : BufferState) (new : List Nat) (start : Nat) (s' : BufferState),
      s.append new start = some (true, s') → s.start_pos ≤ start) ∧
    (∀ (s : BufferState) (new : List Nat) (start : Nat) (s' : BufferState),
      s.data ≠ [] → s.start_pos ≤ start → start ≠ s.end_pos →
      s.append new start = some (true, s') → s'.data = new ∧ s'.start_pos = start) ∧
    (∀ (s : BufferState) (p : Nat),
      s.contains p = true ↔ s.start_pos ≤ p ∧ p < s.start_pos + s.data.length) := by
  refine ⟨?_, ?_, ?_, ?_⟩
  · intro s start
    simp [BufferState.append]
  · intro s new start s' h
    exact (BufferState.append_true_elim s new start s' h).2.1
  · intro s new start s' hne hle hnee happ
    obtain ⟨hnew, hle2, hc⟩ := BufferState.append_true_elim s new start s' happ
    rw [BufferState.rebaseIfNonAdjacent_fires _ _
      (by rw [BufferState.clearPendingIfCovered_data]; exact hne)
      (by rw [BufferState.clearPendingIfCovered_start_pos,
              BufferState.clearPendingIfCovered_data]; exact hnee)] at hc
    obtain ⟨hov, hdata, hstart, _, _⟩ := BufferState.appendCore_elim _ _ _ _ hc
    simp only [List.length_nil, List.drop_nil, List.nil_append, Nat.zero_add] at hov hdata hstart
    constructor
    · exact hdata
    · omega
  · intro s p
    simp [BufferState.contains]

/-- C4: any completed (non-panicking) `append` keeps the window within the
16 MiB capacity, never moves `start_pos` backwards, and on acceptance
resolves overflow by keeping only a suffix of the old window in front of
the new bytes (front eviction). -/
theorem append_capacity_and_monotonicity (s : BufferState) (new : List Nat) (start : Nat)
    (b : Bool) (s' : BufferState)
    (hcap : s.data.length ≤ BUFFER_SIZE)
    (h : s.append new start = some (b, s')) :
    s'.data.length ≤ BUFFER_SIZE ∧ s.start_pos ≤ s'.start_pos ∧
      (b = true → s'.data.IsSuffix (s.data ++ new) ∧ new.IsSuffix s'.data) := by
  cases b with
  | false =>
    rcases BufferState.append_false_elim s new start s' h with h1 | h1
    · subst h1
      exact ⟨hcap, Nat.le_refl _, by simp⟩
    · subst h1
      rw [BufferState.clearPendingIfCovered_data, BufferState.clearPendingIfCovered_start_pos]
      exact ⟨hcap, Nat.le_refl _, by simp⟩
  | true =>
    obtain ⟨hnew, hle, hc⟩ := BufferState.append_true_elim s new start s' h
    obtain ⟨hov, hdata, hstart, _, _⟩ := BufferState.appendCore_elim _ _ _ _ hc
    have hlen : s'.data.length =
        (BufferState.rebaseIfNonAdjacent (BufferState.clearPendingIfCovered s start)
            start).data.length -
          ((BufferState.rebaseIfNonAdjacent (BufferState.clearPendingIfCovered s start)
              start).data.length + new.length - BUFFER_SIZE) + new.length := by
      rw [hdata]
      simp
    refine ⟨by omega, ?_, ?_⟩
    · rcases BufferState.rebaseIfNonAdjacent_start_pos_cases
        (BufferState.clearPendingIfCovered s start) start with h1 | h1
      · rw [h1] at hstart
        omega
      · rw [BufferState.clearPendingIfCovered_start_pos] at h1
        rw [h1] at hstart
        omega
    · intro _
      rcases BufferState.rebaseIfNonAdjacent_data_cases
        (BufferState.clearPendingIfCovered s start) start with h1 | h1
      · rw [h1] at hdata
        simp only [List.drop_nil, List.nil_append] at hdata
        rw [hdata]
        exact ⟨⟨s.data, rfl⟩, List.suffix_refl _⟩
      · rw [BufferState.clearPendingIfCovered_data] at h1
        rw [h1] at hdata
        refine ⟨?_, ⟨_, hdata.symm⟩⟩
        rw [hdata]
        refine ⟨s.data.take
          (s.data.length + new.length - BUFFER_SIZE), ?_⟩
        rw [← List.append_assoc, List.take_append_drop]

/-- C4 (witness): a concrete accepted append within capacity. -/
theorem append_capacity_and_monotonicity_witness :
    (BufferState.new 100).data.length ≤ BUFFER_SIZE ∧
      (({ data := [1, 2, 3], head := 0, start_pos := 0, total_bytes := 100, eof := false,
          pending := none, max_buffered_from_start := 3, buffering_base := 0 } :
            BufferState).data.length ≤ BUFFER_SIZE ∧
        (BufferState.new 100).start_pos ≤
          ({ data := [1, 2, 3], head := 0, start_pos := 0, total_bytes := 100, eof := false,
             pending := none, max_buffered_from_start := 3, buffering_base := 0 } :
               BufferState).start_pos ∧
        (true = true →
          ({ data := [1, 2, 3], head := 0, start_pos := 0, total_bytes := 100, eof := false,
             pending := none, max_buffered_from_start := 3, buffering_base := 0 } :
               BufferState).data.IsSuffix ((BufferState.new 100).data ++ [1, 2, 3]) ∧
          List.IsSuffix [1, 2, 3]
            ({ data := [1, 2, 3], head := 0, start_pos := 0, total_bytes := 100, eof := false,
               pending := none, max_buffered_from_start := 3, buffering_base := 0 } :
                 BufferState).data)) :=
  ⟨by decide,
    append_capacity_and_monotonicity (BufferState.new 100) [1, 2, 3] 0 true
      { data := [1, 2, 3], head := 0, start_pos := 0, total_bytes := 100, eof := false,
        pending := none, max_buffered_from_start := 3, buffering_base := 0 }
      (by decide) (by decide)⟩

/-- C3 (witness): a non-empty window at `[0, 2)` accepts an append at
`start = 5` by rebasing: afterwards it caches exactly the new bytes and
begins at `5`. -/
theorem append_acceptance_and_rebase_witness :
    (({ data := [1, 2], head := 0, start_pos := 0, total_bytes := 100, eof := false,
        pending := none, max_buffered_from_start := 2, buffering_base := 0 } :
          BufferState).data ≠ [] ∧
      ({ data := [1, 2], head := 0, start_pos := 0, total_bytes := 100, eof := false,
         pending := none, max_buffered_from_start := 2, buffering_base := 0 } :
           BufferState).start_pos ≤ 5 ∧
      5 ≠ ({ data := [1, 2], head := 0, start_pos := 0, total_bytes := 100, eof := false,
             pending := none, max_buffered_from_start := 2, buffering_base := 0 } :
               BufferState).end_pos) ∧
    (({ data := [7], head := 0, start_pos := 5, total_bytes := 100, eof := false,
        pending := none, max_buffered_from_start := 2, buffering_base := 0 } :
          BufferState).data = [7] ∧
      ({ data := [7], head := 0, start_pos := 5, total_bytes := 100, eof := false,
         pending := none, max_buffered_from_start := 2, buffering_base := 0 } :
           BufferState).start_pos = 5) :=
  ⟨⟨by decide, by decide, by decide⟩,
    append_acceptance_and_rebase.2.2.1
      { data := [1, 2], head := 0, start_pos := 0, total_bytes := 100, eof := false,
        pending := none, max_buffered_from_start := 2, buffering_base := 0 }
      [7] 5
      { data := [7], head := 0, start_pos := 5, total_bytes := 100, eof := false,
        pending := none, max_buffered_from_start := 2, buffering_base := 0 }
      (by decide) (by decide) (by decide) (by decide)⟩

/-- C6 (counterexample): two concrete violations of the claim as stated.
(1) A rejected append whose range reaches `total_bytes` completes without
setting `eof` (the window starts at `5`, the append at `0` is refused).
(2) `eof` does not remain true under all subsequent operations: `clear`
resets it to `false`. -/
theorem eof_claim_cex :
    (((BufferState.new 1).clear 5).total_bytes ≤ 0 + ([9] : List Nat).length ∧
      ((BufferState.new 1).clear 5).append [9] 0 = some (false, (BufferState.new 1).clear 5) ∧
      ((BufferState.new 1).clear 5).eof = false) ∧
    (({ data := [9], head := 0, start_pos := 0, total_bytes := 1, eof := true,
        pending := none, max_buffered_from_start := 1, buffering_base := 0 } :
          BufferState).eof = true ∧
      (({ data := [9], head := 0, start_pos := 0, total_bytes := 1, eof := true,
          pending := none, max_buffered_from_start := 1, buffering_base := 0 } :
            BufferState).clear 0).eof = false) := by
  decide

/-- C6 (amended): an *accepted* append whose range reaches `total_bytes`
sets `eof`; `eof` is preserved by `discard_before`, `mark_pending`,
`clear_pending`, and by accepted appends that do not rebase the window
(empty window or adjacent `start`); `clear` resets `eof` to `false`; and
whenever `eof` is set, `should_prefetch` is `false` for every position. -/
theorem eof_setting_and_latching :
    (∀ (s : BufferState) (new : List Nat) (start : Nat) (s' : BufferState),
      s.append new start = some (true, s') → s.total_bytes ≤ start + new.length →
      s'.eof = true) ∧
    (∀ (s : BufferState) (new : List Nat) (start : Nat) (s' : BufferState),
      s.eof = true → (s.data = [] ∨ start = s.end_pos) →
      s.append new start = some (true, s') → s'.eof = true) ∧
    (∀ (s : BufferState) (pos : Nat), (s.discard_before pos).eof = s.eof) ∧
    (∀ (s : BufferState) (a b : Nat), (s.mark_pending a b).eof = s.eof) ∧
    (∀ s : BufferState, s.clear_pending.eof = s.eof) ∧
    (∀ (s : BufferState) (start : Nat), (s.clear start).eof = false) ∧
    (∀ (s : BufferState) (pos : Nat), s.eof = true → s.should_prefetch pos = false) := by
  refine ⟨?_, ?_, ?_, fun s a b => rfl, fun s => rfl, ?_, ?_⟩
  · intro s new start s' happ hreach
    obtain ⟨-, -, hc⟩ := BufferState.append_true_elim s new start s' happ
    obtain ⟨-, -, -, -, heof⟩ := BufferState.appendCore_elim _ _ _ _ hc
    rw [heof, BufferState.rebaseIfNonAdjacent_total_bytes,
      BufferState.clearPendingIfCovered_total_bytes]
    simp [hreach]
  · intro s new start s' heof hnadj happ
    obtain ⟨-, -, hc⟩ := BufferState.append_true_elim s new start s' happ
    rw [BufferState.rebaseIfNonAdjacent_eq_self] at hc
    · obtain ⟨-, -, -, -, heq⟩ := BufferState.appendCore_elim _ _ _ _ hc
      rw [heq, BufferState.clearPendingIfCovered_eof, heof]
      simp
    · rw [BufferState.clearPendingIfCovered_data, BufferState.clearPendingIfCovered_start_pos]
      exact hnadj
  · intro s pos
    unfold BufferState.discard_before
    simp only []
    split
    · rfl
    · split
      · rfl
      · rfl
  · intro s start
    unfold BufferState.clear
    simp only []
    split
    · rfl
    · rfl
  · intro s pos h
    simp [BufferState.should_prefetch, h]

/-- C6 (witness): a concrete accepted append that reaches the end of a
1-byte resource sets `eof`, and `should_prefetch` is then `false`. -/
theorem eof_setting_and_latching_witness :
    ((BufferState.new 1).append [9] 0 =
        some (true,
          { data := [9], head := 0, start_pos := 0, total_bytes := 1, eof := true,
            pending := none, max_buffered_from_start := 1, buffering_base := 0 }) ∧
      (BufferState.new 1).total_bytes ≤ 0 + ([9] : List Nat).length) ∧
    ({ data := [9], head := 0, start_pos := 0, total_bytes := 1, eof := true,
       pending := none, max_buffered_from_start := 1, buffering_base := 0 } :
         BufferState).eof = true :=
  ⟨⟨by decide, by decide⟩,
    eof_setting_and_latching.1 (BufferState.new 1) [9] 0
      { data := [9], head := 0, start_pos := 0, total_bytes := 1, eof := true,
        pending := none, max_buffered_from_start := 1, buffering_base := 0 }
      (by decide) (by decide)⟩

/-- C9: for any position outside the cached window — below `start_pos`
(where the `u64` offset subtraction wraps) as well as at or beyond the
window end — `read_at` returns `0` and leaves the destination buffer
untouched. -/
theorem read_at_outside_window (s : BufferState) (pos : Nat) (buf : List Nat)
    (h : s.contains pos = false) : s.read_at pos buf = (0, buf) := by
  have havail : s.available_from pos = 0 := by
    unfold BufferState.available_from
    rw [h]
    simp
  unfold BufferState.read_at
  rw [havail]
  simp only [Nat.min_zero, Nat.add_zero]
  split
  · simp [BufferState.writeSlice]
  · next hgt =>
    have hnlt : ¬ u64WrapSub pos s.start_pos < (s.data.take s.firstSliceLen).length := by
      omega
    simp [hnlt]
    intro h1 h2
    exfalso
    rw [List.length_take] at hnlt
    omega

/-- C9 (witness): reading below the window start of a concrete buffer
(start `10`, two cached bytes) returns `0` bytes and does not write into
the destination. -/
theorem read_at_outside_window_witness :
    ({ data := [1, 2], head := 0, start_pos := 10, total_bytes := 100, eof := false,
       pending := none, max_buffered_from_start := 12, buffering_base := 0 } :
         BufferState).contains 3 = false ∧
      ({ data := [1, 2], head := 0, start_pos := 10, total_bytes := 100, eof := false,
         pending := none, max_buffered_from_start := 12, buffering_base := 0 } :
           BufferState).read_at 3 [7, 8] = (0, [7, 8]) :=
  ⟨by decide,
    read_at_outside_window
      { data := [1, 2], head := 0, start_pos := 10, total_bytes := 100, eof := false,
        pending := none, max_buffered_from_start := 12, buffering_base := 0 }
      3 [7, 8] (by decide)⟩

/-- C10: `discard_before` leaves the window end, `total_bytes`, `eof` and
the pending marker unchanged; it never decreases `start_pos`; when
`pos > start_pos` it advances `start_pos` by
`min (pos - start_pos) (len data)` and drops exactly that many bytes from
the front; when `pos ≤ start_pos` it changes nothing. -/
theorem discard_before_frame (s : BufferState) (pos : Nat) :
    (s.discard_before pos).end_pos = s.end_pos ∧
    (s.discard_before pos).total_bytes = s.total_bytes ∧
    (s.discard_before pos).eof = s.eof ∧
    (s.discard_before pos).pending = s.pending ∧
    s.start_pos ≤ (s.discard_before pos).start_pos ∧
    (s.start_pos < pos →
      (s.discard_before pos).start_pos =
          s.start_pos + min (pos - s.start_pos) s.data.length ∧
        (s.discard_before pos).data = s.data.drop (min (pos - s.start_pos) s.data.length)) ∧
    (pos ≤ s.start_pos → s.discard_before pos = s) := by
  unfold BufferState.discard_before
  simp only []
  split
  · next hle =>
    refine ⟨rfl, rfl, rfl, rfl, Nat.le_refl _, fun hlt => absurd hle (by omega), fun _ => rfl⟩
  · next hgt =>
    have hlt : s.start_pos < pos := by omega
    split
    · next hz =>
      refine ⟨rfl, rfl, rfl, rfl, Nat.le_refl _, fun _ => ⟨by omega, ?_⟩,
        fun hc => absurd hc hgt⟩
      rw [hz, List.drop_zero]
    · next hz =>
      refine ⟨?_, rfl, rfl, rfl, Nat.le_add_right _ _, fun _ => ⟨rfl, rfl⟩,
        fun hc => absurd hc hgt⟩
      simp only [BufferState.end_pos, List.length_drop]
      have : min (pos - s.start_pos) s.data.length ≤ s.data.length := Nat.min_le_right _ _
      omega

/-- C10 (witness): discarding before `12` on a window `[10, 14)` drops two
bytes, advances `start_pos` to `12`, and leaves end, length bookkeeping,
`eof` and `pending` unchanged. -/
theorem discard_before_frame_witness :
    ({ data := [1, 2, 3, 4], head := 0, start_pos := 10, total_bytes := 100, eof := false,
       pending := none, max_buffered_from_start := 14, buffering_base := 0 } :
         BufferState).start_pos < 12 ∧
      (({ data := [1, 2, 3, 4], head := 0, start_pos := 10, total_bytes := 100, eof := false,
          pending := none, max_buffered_from_start := 14, buffering_base := 0 } :
            BufferState).discard_before 12).end_pos =
        ({ data := [1, 2, 3, 4], head := 0, start_pos := 10, total_bytes := 100, eof := false,
           pending := none, max_buffered_from_start := 14, buffering_base := 0 } :
             BufferState).end_pos :=
  ⟨by decide,
    (discard_before_frame
      { data := [1, 2, 3, 4], head := 0, start_pos := 10, total_bytes := 100, eof := false,
        pending := none, max_buffered_from_start := 14, buffering_base := 0 } 12).1⟩

/-- C5 (code defect, evaluated): a reachable buffer whose `VecDeque` ring
has wrapped — `head` is two slots before the 16 MiB capacity, so
`as_slices` splits the four cached bytes `[10, 20, 30, 40]` into
`s1 = [10, 20]`, `s2 = [30, 40]`.  Reading one byte at offset `3` inside
the window must yield `40`, but `read_at` copies from the *start* of the
second slice and returns `30`: the round-trip property fails. -/
theorem read_at_wrapped_window_wrong_byte :
    ({ data := [10, 20, 30, 40], head := BUFFER_SIZE - 2, start_pos := BUFFER_SIZE - 2,
       total_bytes := 20000000, eof := false, pending := none,
       max_buffered_from_start := BUFFER_SIZE + 2, buffering_base := 0 } :
         BufferState).contains (BUFFER_SIZE + 1) = true ∧
    ({ data := [10, 20, 30, 40], head := BUFFER_SIZE - 2, start_pos := BUFFER_SIZE - 2,
       total_bytes := 20000000, eof := false, pending := none,
       max_buffered_from_start := BUFFER_SIZE + 2, buffering_base := 0 } :
         BufferState).available_from (BUFFER_SIZE + 1) = 1 ∧
    ({ data := [10, 20, 30, 40], head := BUFFER_SIZE - 2, start_pos := BUFFER_SIZE - 2,
       total_bytes := 20000000, eof := false, pending := none,
       max_buffered_from_start := BUFFER_SIZE + 2, buffering_base := 0 } :
         BufferState).data.get?
        (BUFFER_SIZE + 1 - (BUFFER_SIZE - 2)) = some 40 ∧
    ({ data := [10, 20, 30, 40], head := BUFFER_SIZE - 2, start_pos := BUFFER_SIZE - 2,
       total_bytes := 20000000, eof := false, pending := none,
       max_buffered_from_start := BUFFER_SIZE + 2, buffering_base := 0 } :
         BufferState).read_at (BUFFER_SIZE + 1) [99] = (1, [30]) ∧
    (30 : Nat) ≠ 40 := by
  decide

/-! ## Claim theorems: reader and decode pipeline -/

/-- C2: when a fetch result arrives under a generation different from the
one it was requested with, the handler leaves the cached data of the buffer —
window contents, `start_pos`, `eof`, `total_bytes` — exactly as they
were; only the pending marker (set on command receipt) is touched, and
`append` is never reached. -/
theorem stale_fetch_result_preserves_cached_data
    (buf : BufferState) (start end_ reqGen curGen : Nat) (data : List Nat)
    (h : reqGen ≠ curGen) :
    processFetchResult buf start end_ reqGen curGen (.ok data) =
        some (buf.mark_pending start end_) ∧
      (buf.mark_pending start end_).data = buf.data ∧
      (buf.mark_pending start end_).start_pos = buf.start_pos ∧
      (buf.mark_pending start end_).eof = buf.eof ∧
      (buf.mark_pending start end_).total_bytes = buf.total_bytes := by
  refine ⟨?_, rfl, rfl, rfl, rfl⟩
  unfold processFetchResult
  simp [h]

/-- C2 (witness): a fetch requested at generation `0` whose result is
observed after the `ensure` bump to generation `1` leaves the cached
bytes of a fresh 10-byte window untouched. -/
theorem stale_fetch_result_preserves_cached_data_witness :
    (0 ≠ bumpGeneration 0) ∧
      (processFetchResult (BufferState.new 10) 0 5 0 (bumpGeneration 0)
          (.ok [1, 2]) = some ((BufferState.new 10).mark_pending 0 5) ∧
        ((BufferState.new 10).mark_pending 0 5).data = (BufferState.new 10).data ∧
        ((BufferState.new 10).mark_pending 0 5).start_pos = (BufferState.new 10).start_pos ∧
        ((BufferState.new 10).mark_pending 0 5).eof = (BufferState.new 10).eof ∧
        ((BufferState.new 10).mark_pending 0 5).total_bytes =
          (BufferState.new 10).total_bytes) :=
  ⟨by decide,
    stale_fetch_result_preserves_cached_data (BufferState.new 10) 0 5 0
      (bumpGeneration 0) [1, 2] (by decide)⟩

/-- C8: whenever the `content-length` header of the HEAD probe is absent or
does not parse as a `u64`, `StreamingDataSource::new` fails with the
`content-length missing` error and constructs no reader state. -/
theorem new_fails_without_content_length (header : Option (List Nat))
    (h : contentLengthOf header = none) :
    StreamingDataSource.new header = .error "content-length missing" := by
  unfold StreamingDataSource.new
  rw [h]

/-- C8 (witness): a header value `"10a"` does not parse as a `u64`, so
construction fails. -/
theorem new_fails_without_content_length_witness :
    contentLengthOf (some [49, 48, 97]) = none ∧
      StreamingDataSource.new (some [49, 48, 97]) = .error "content-length missing" :=
  ⟨by decide, new_fails_without_content_length (some [49, 48, 97]) (by decide)⟩

/-- C7: `next` never blocks — in particular, when the channel is empty,
no buffered samples remain from the current chunk, and no `Finished`
message for the observed generation has been recorded, it returns the
silence sample `0` instead of waiting. -/
theorem next_returns_silence_on_empty_channel (s : IterState) (g : Nat)
    (hbuf : s.pending_generation = g → s.pending_samples.length ≤ s.sample_pos)
    (hfin : s.finished_generation ≠ some g) :
    (nextSample s g []).1 = some 0 := by
  unfold nextSample syncGeneration
  by_cases hpg : s.pending_generation = g
  · rw [if_neg (not_not_intro hpg)]
    rw [dif_neg (by have := hbuf hpg; omega)]
    unfold recvLoop
    rw [if_neg hfin]
  · rw [if_pos hpg]
    rw [dif_neg (by simp)]
    unfold recvLoop
    rw [if_neg (by simp)]

/-- C7 (witness): a freshly constructed consumer with an empty channel
yields silence. -/
theorem next_returns_silence_on_empty_channel_witness :
    (({ pending_samples := [], sample_pos := 0, pending_generation := 0,
        finished_generation := none } : IterState).finished_generation ≠ some 0) ∧
      (nextSample
          { pending_samples := [], sample_pos := 0, pending_generation := 0,
            finished_generation := none } 0 []).1 = some 0 :=
  ⟨by decide,
    next_returns_silence_on_empty_channel
      { pending_samples := [], sample_pos := 0, pending_generation := 0,
        finished_generation := none } 0 (by intro _; decide) (by decide)⟩

theorem recvLoop_yields_only_tagged (g : Nat) (P : ℚ → Prop) :
    ∀ (msgs : List SampleMessage) (s : IterState),
      P 0 →
      (∀ x ∈ s.pending_samples, P x) →
      (∀ chunk : List ℚ, SampleMessage.samples chunk g ∈ msgs → ∀ x ∈ chunk, P x) →
      ∀ x : ℚ, (recvLoop g s msgs).1 = some x → P x := by
  intro msgs
  induction msgs with
  | nil =>
    intro s h0 hbuf hmsg x hx
    unfold recvLoop at hx
    split at hx
    · simp at hx
    · simp only [Option.some_inj] at hx
      subst hx
      exact h0
  | cons m rest ih =>
    intro s h0 hbuf hmsg x hx
    cases m with
    | samples chunk t =>
      unfold recvLoop at hx
      split at hx
      · exact ih s h0 hbuf (fun c hc => hmsg c (List.mem_cons_of_mem _ hc)) x hx
      · next hne =>
        have ht : t = g := not_ne_iff.mp hne
        subst ht
        have hchunk : ∀ y ∈ chunk, P y := hmsg chunk (List.mem_cons_self _ _)
        simp only [] at hx
        split at hx
        · next hlt =>
          simp only [Option.some_inj] at hx
          subst hx
          exact hchunk _ (List.get_mem _ _ _)
        · exact ih _ h0 (fun y hy => hchunk y (by simpa using hy))
            (fun c hc => hmsg c (List.mem_cons_of_mem _ hc)) x hx
    | finished t =>
      unfold recvLoop at hx
      split at hx
      · simp only [] at hx
        split at hx
        · simp at hx
        · exact ih _ h0 (fun y hy => hbuf y (by simpa using hy))
            (fun c hc => hmsg c (List.mem_cons_of_mem _ hc)) x hx
      · exact ih s h0 hbuf (fun c hc => hmsg c (List.mem_cons_of_mem _ hc)) x hx

theorem nextSample_yields_only_tagged (g : Nat) (P : ℚ → Prop) (s : IterState)
    (msgs : List SampleMessage)
    (h0 : P 0)
    (hbuf : s.pending_generation = g → ∀ x ∈ s.pending_samples, P x)
    (hmsg : ∀ chunk : List ℚ, SampleMessage.samples chunk g ∈ msgs → ∀ x ∈ chunk, P x) :
    ∀ x : ℚ, (nextSample s g msgs).1 = some x → P x := by
  intro x hx
  unfold nextSample syncGeneration at hx
  by_cases hpg : s.pending_generation = g
  · rw [if_neg (not_not_intro hpg)] at hx
    simp only [] at hx
    split at hx
    · simp only [Option.some_inj] at hx
      subst hx
      exact hbuf hpg _ (List.get_mem _ _ _)
    · exact recvLoop_yields_only_tagged g P msgs s h0 (hbuf hpg) hmsg x hx
  · rw [if_pos hpg] at hx
    rw [dif_neg (by simp)] at hx
    exact recvLoop_yields_only_tagged g P msgs _ h0 (by simp) hmsg x hx

/-- C1: after `seek(p)` immediately followed by `seek(q)` the shared
generation is `g₀ + 2`; any sample that `next` then delivers is either
the synthesized silence `0` or comes from the buffered chunk of the consumer
or a channel message tagged with that second-seek generation.  Messages
tagged with the generation `g₀ + 1` of the first seek are completely
unconstrained by the hypotheses: no sample of theirs is ever returned. -/
theorem next_after_double_seek_yields_only_second_generation
    (g0 : Nat) (P : ℚ → Prop) (s : IterState) (msgs : List SampleMessage)
    (h0 : P 0)
    (hbuf : s.pending_generation = bumpGeneration (bumpGeneration g0) →
      ∀ x ∈ s.pending_samples, P x)
    (hmsg : ∀ chunk : List ℚ,
      SampleMessage.samples chunk (bumpGeneration (bumpGeneration g0)) ∈ msgs →
      ∀ x ∈ chunk, P x) :
    ∀ x : ℚ, (nextSample s (bumpGeneration (bumpGeneration g0)) msgs).1 = some x → P x :=
  nextSample_yields_only_tagged (bumpGeneration (bumpGeneration g0)) P s msgs h0 hbuf hmsg

/-- C1 (witness): with the shared generation at `2` (two seeks from `0`)
and a stale chunk `[3]` tagged `1` in the channel, the delivered sample
can only be the silence `0`. -/
theorem next_after_double_seek_witness :
    ((0 : ℚ) = 0) ∧
      ((nextSample
          { pending_samples := [], sample_pos := 0, pending_generation := 2,
            finished_generation := none }
          (bumpGeneration (bumpGeneration 0)) [SampleMessage.samples [3] 1]).1 = some 0 →
        (0 : ℚ) = 0) :=
  ⟨rfl,
    next_after_double_seek_yields_only_second_generation 0 (fun q => q = 0)
      { pending_samples := [], sample_pos := 0, pending_generation := 2,
        finished_generation := none }
      [SampleMessage.samples [3] 1] rfl
      (by intro _ x hx; simp at hx)
      (by intro c hc x hxx; simp [bumpGeneration] at hc) 0⟩

end YaMusic
